import Mathlib

/-!
Verification development for the `apollo-datasource-dynamodb` library.

The library is a cache-backed accessor over a DynamoDB table: pure key-derivation
helpers (`src/utils.ts`), a caching layer `DynamoDBCacheImpl` (`DynamoDBCache.ts`)
and the data-source operations of `DynamoDBDataSource` (`DynamoDBDataSource.ts`).

Shallow embedding conventions:
- A JavaScript object (a DynamoDB record, or a `DocumentClient.Key`) is an
  association list in insertion order; object keys are unique by construction,
  and `[k]: v` insertion (`jsObjInsert` / `jsMapInsert`) replaces the value of an
  existing key in place, otherwise appends, exactly as object spread + computed
  key does in JS.
- Attribute values are strings or integers (`AttrVal`); template-string
  interpolation of a possibly-`undefined` value is `jsToStr`.
- The asynchronous effectful methods become pure functions that take the
  behaviour of the external collaborators as arguments (the underlying
  key-value cache client's `get` as `kvGet : String → Except Unit (Option String)`,
  the DynamoDB document-client call outcome as an `Except (Option String) _`
  whose error carries the optional error message) and return, besides the
  result, the trace of operations issued to the underlying key-value cache
  client (`List CacheEff`) and, for `getItem`, the number of backing-store
  reads performed.
- `JSON.stringify` / `JSON.parse` are platform functions, generic in the item
  type in the source (`DynamoDBCacheImpl<T>`); they are passed as parameters
  `stringify : Item → String` and `parse : String → Option Item`, with
  `parse s = none` standing for `JSON.parse` throwing. Items model JS objects
  (DynamoDB records), which are always truthy.
- An optional `ttl : number` parameter becomes `Option Nat`; JS truthiness of a
  supplied number (`if (ttl)`) is `ttlTruthy` (absent or `0` is falsy).
-/

/-- A scalar DynamoDB attribute value: a string or a number. -/
inductive AttrVal where
  | s (v : String)
  | n (v : Int)
deriving DecidableEq, Repr

/-- Template-string rendering of an attribute value. -/
def AttrVal.toStr : AttrVal → String
  | AttrVal.s v => v
  | AttrVal.n v => toString v

/-- Template-string rendering of a possibly-undefined JS value
(`undefined` interpolates as the string "undefined"). -/
def jsToStr : Option AttrVal → String
  | none => "undefined"
  | some a => a.toStr

/-- A DynamoDB record (`item`): a JS object mapping attribute names to values,
in insertion order. -/
abbrev Item := List (String × AttrVal)

/-- A `DynamoDB.DocumentClient.Key`: a JS object mapping key-attribute names to
values (possibly `undefined` when extracted from a record lacking the attribute). -/
abbrev DocKey := List (String × Option AttrVal)

/-- One element of a table key schema (`AttributeName` + `KeyType`, i.e.
"HASH" or "RANGE"). -/
structure KeySchemaElement where
  AttributeName : String
  KeyType : String
deriving DecidableEq, Repr

/-- A table key schema: the ordered list of key schema elements. -/
abbrev KeySchema := List KeySchemaElement

/-- `export const CACHE_PREFIX_KEY = 'dynamodbcache:'` (DynamoDBCache.ts). -/
def CACHE_PREFIX_KEY : String := "dynamodbcache:"

/-- `export const TTL_SEC = 30 * 60` (DynamoDBCache.ts): default cache ttl. -/
def TTL_SEC : Nat := 30 * 60

/-- JS object update `{ ...obj, [k]: v }`: replace the value of an existing key
in place, otherwise append the new entry. -/
def jsObjInsert (obj : DocKey) (k : String) (v : Option AttrVal) : DocKey :=
  if (obj.lookup k).isSome then
    obj.map (fun p => if p.1 = k then (k, v) else p)
  else
    obj ++ [(k, v)]

/-- JS object update `{ ...accum, [cacheKey]: curr }` for the cache-key item
map: replace in place or append. -/
def jsMapInsert (m : List (String × Item)) (k : String) (v : Item) :
    List (String × Item) :=
  if (m.lookup k).isSome then
    m.map (fun p => if p.1 = k then (k, v) else p)
  else
    m ++ [(k, v)]

/-- `buildCacheKey` (utils.ts, lines 18-23): fold the key's entries into
`":" + name + "-" + value` segments and prepend the prefix and the table name. -/
def buildCacheKey (cachePfx : String) (tableName : String) (key : DocKey) :
    String :=
  let keysStr :=
    key.foldl (fun accum curr => accum ++ ":" ++ curr.1 ++ "-" ++ jsToStr curr.2) ""
  cachePfx ++ tableName ++ keysStr

/-- `buildKey` (utils.ts, lines 30-37): extract the schema's attributes from the
item into a fresh object (`item[attr]` is `undefined` when absent). -/
def buildKey (keySchema : KeySchema) (item : Item) : DocKey :=
  keySchema.foldl
    (fun prevKeys keyElement =>
      jsObjInsert prevKeys keyElement.AttributeName (item.lookup keyElement.AttributeName))
    []

/-- `buildItemsCacheMap` (utils.ts, lines 74-88): associate each item with its
derived cache key; on key collision the later item overwrites the earlier. -/
def buildItemsCacheMap (cachePfx : String) (tableName : String)
    (keySchema : KeySchema) (items : List Item) : List (String × Item) :=
  items.foldl
    (fun accum curr =>
      jsMapInsert accum (buildCacheKey cachePfx tableName (buildKey keySchema curr)) curr)
    []

/-- One operation issued to the underlying key-value cache client supplied by
the caller (the cache wrapped by the `PrefixingKeyValueCache`). The `set`
value is `none` when JS `undefined` is passed (e.g. `JSON.stringify(undefined)`). -/
inductive CacheEff where
  | get (key : String)
  | set (key : String) (value : Option String) (ttl : Nat)
  | del (key : String)
deriving DecidableEq, Repr

/-- The key of a cache-client operation. -/
def CacheEff.key : CacheEff → String
  | CacheEff.get k => k
  | CacheEff.set k _ _ => k
  | CacheEff.del k => k

/-- Whether a cache-client operation is a cache write (`set`). -/
def CacheEff.isSet : CacheEff → Bool
  | CacheEff.set _ _ _ => true
  | _ => false

/-- Number of cache writes in a trace of cache-client operations. -/
def setCount (tr : List CacheEff) : Nat := (tr.filter CacheEff.isSet).length

/-- An `ApolloError` (apollo-server-errors): carries its message. -/
structure ApolloError where
  message : String
deriving DecidableEq, Repr

/-- `new ApolloError(err?.message || dflt)`: use the underlying message when it
is present and truthy (non-empty), otherwise the fixed default message. -/
def apolloErrorOf (m : Option String) (dflt : String) : ApolloError :=
  ApolloError.mk (match m with
    | some s => if s = "" then dflt else s
    | none => dflt)

/-- `PrefixingKeyValueCache` (apollo-server-caching): the wrapper installed by
the `DynamoDBCacheImpl` constructor prepends its prefix to every key before
forwarding to the wrapped cache client. -/
def PrefixingKeyValueCache.wrapKey (pfx : String) (key : String) : String :=
  pfx ++ key

/-- JS truthiness of the optional numeric `ttl` argument: absent or `0` is falsy. -/
def ttlTruthy : Option Nat → Bool
  | none => false
  | some t => t != 0

/-- `DynamoDBDataSource` / `DynamoDBCacheImpl` input for `get`
(`DynamoDB.DocumentClient.GetItemInput`): table name and key (read options are
opaque and forwarded, so they are not modelled). -/
structure GetItemInput where
  TableName : String
  Key : DocKey

/-- `DynamoDB.DocumentClient.PutItemInput`: table name and the item to write. -/
structure PutItemInput where
  TableName : String
  Item : Item

/-- `DynamoDB.DocumentClient.UpdateItemInput`: table name and key (the update
expression is opaque to the accessor and not modelled). -/
structure UpdateItemInput where
  TableName : String
  Key : DocKey

/-- `DynamoDB.DocumentClient.DeleteItemInput`: table name and key. -/
structure DeleteItemInput where
  TableName : String
  Key : DocKey

/-- `DynamoDBCacheImpl.retrieveFromCache` (DynamoDBCache.ts, lines 36-46):
`keyValueCache.get(key)` through the prefixing wrapper; any thrown error
(cache I/O via `Except.error`, or `JSON.parse` failure via `parse = none`) is
caught and becomes `undefined`; an absent or empty (falsy) string is also a
miss. Returns the retrieved item (if any) together with the trace of
operations issued to the underlying cache client. -/
def DynamoDBCacheImpl.retrieveFromCache
    (kvGet : String → Except Unit (Option String))
    (parse : String → Option Item) (key : String) :
    Option Item × List CacheEff :=
  let wrapped := PrefixingKeyValueCache.wrapKey CACHE_PREFIX_KEY key
  let trace := [CacheEff.get wrapped]
  match kvGet wrapped with
  | Except.error _ => (none, trace)
  | Except.ok none => (none, trace)
  | Except.ok (some itemFromCache) =>
    if itemFromCache = "" then (none, trace)
    else
      match parse itemFromCache with
      | none => (none, trace)
      | some v => (some v, trace)

/-- `DynamoDBCacheImpl.setInCache` (DynamoDBCache.ts, lines 54-56):
`keyValueCache.set(key, JSON.stringify(item), { ttl })` through the prefixing
wrapper, with the declared default `ttl: number = TTL_SEC` applying when the
caller passed `undefined`. Returns the trace of cache-client operations. -/
def DynamoDBCacheImpl.setInCache (stringify : Item → String) (key : String)
    (item : Option Item) (ttl : Option Nat) : List CacheEff :=
  [CacheEff.set (PrefixingKeyValueCache.wrapKey CACHE_PREFIX_KEY key)
    (item.map stringify) (ttl.getD TTL_SEC)]

/-- `DynamoDBCacheImpl.setItemsInCache` (DynamoDBCache.ts, lines 63-67):
`Object.entries(items).forEach(item => setInCache(item[0], item[1], ttl))`. -/
def DynamoDBCacheImpl.setItemsInCache (stringify : Item → String)
    (items : List (String × Item)) (ttl : Option Nat) : List CacheEff :=
  items.foldl
    (fun acc item => acc ++ DynamoDBCacheImpl.setInCache stringify item.1 (some item.2) ttl)
    []

/-- `DynamoDBCacheImpl.getItem` (DynamoDBCache.ts, lines 76-94): derive the
cache key, attempt the cache; on a hit return the cached item; on a miss
perform the store `get` (`storeGet` is its outcome) and unconditionally
`setInCache` the fetched item (present or not) with the given ttl; a store
failure is rethrown as an `ApolloError`. Returns the result, the cache-client
trace, and the number of backing-store reads issued. -/
def DynamoDBCacheImpl.getItem
    (kvGet : String → Except Unit (Option String))
    (parse : String → Option Item) (stringify : Item → String)
    (storeGet : Except (Option String) (Option Item))
    (getItemInput : GetItemInput) (ttl : Option Nat) :
    Except ApolloError (Option Item) × List CacheEff × Nat :=
  let cacheKey := buildCacheKey CACHE_PREFIX_KEY getItemInput.TableName getItemInput.Key
  let rc := DynamoDBCacheImpl.retrieveFromCache kvGet parse cacheKey
  match rc.1 with
  | some itemFromCache => (Except.ok (some itemFromCache), rc.2, 0)
  | none =>
    match storeGet with
    | Except.error msg =>
      (Except.error (apolloErrorOf msg "An error occurred attempting to retrieve the item"),
       rc.2, 1)
    | Except.ok item =>
      (Except.ok item, rc.2 ++ DynamoDBCacheImpl.setInCache stringify cacheKey item ttl, 1)

/-- `DynamoDBCacheImpl.removeItemFromCache` (DynamoDBCache.ts, lines 101-108):
`keyValueCache.delete(buildCacheKey(CACHE_PREFIX_KEY, tableName, key))` through
the prefixing wrapper. Returns the trace of cache-client operations. -/
def DynamoDBCacheImpl.removeItemFromCache (tableName : String) (key : DocKey) :
    List CacheEff :=
  let cacheKey := buildCacheKey CACHE_PREFIX_KEY tableName key
  [CacheEff.del (PrefixingKeyValueCache.wrapKey CACHE_PREFIX_KEY cacheKey)]

/-- `DynamoDBDataSource.getItem` (DynamoDBDataSource.ts, lines 57-59):
delegates to `dynamodbCache.getItem`. -/
def DynamoDBDataSource.getItem
    (kvGet : String → Except Unit (Option String))
    (parse : String → Option Item) (stringify : Item → String)
    (storeGet : Except (Option String) (Option Item))
    (getItemInput : GetItemInput) (ttl : Option Nat) :
    Except ApolloError (Option Item) × List CacheEff × Nat :=
  DynamoDBCacheImpl.getItem kvGet parse stringify storeGet getItemInput ttl

/-- `DynamoDBDataSource.query` (DynamoDBDataSource.ts, lines 67-83): run the
store query (`storeQuery` is its outcome; a store failure propagates);
`if (items.length && ttl)` build the cache map over the returned items and
`setItemsInCache` with the ttl. Returns the result and the cache-client trace. -/
def DynamoDBDataSource.query (stringify : Item → String) (tableName : String)
    (tableKeySchema : KeySchema)
    (storeQuery : Except (Option String) (List Item)) (ttl : Option Nat) :
    Except (Option String) (List Item) × List CacheEff :=
  match storeQuery with
  | Except.error e => (Except.error e, [])
  | Except.ok items =>
    if items.length != 0 && ttlTruthy ttl then
      let cacheKeyItemMap :=
        buildItemsCacheMap CACHE_PREFIX_KEY tableName tableKeySchema items
      (Except.ok items, DynamoDBCacheImpl.setItemsInCache stringify cacheKeyItemMap ttl)
    else
      (Except.ok items, [])

/-- `DynamoDBDataSource.scan` (DynamoDBDataSource.ts, lines 91-107): identical
caching behaviour to `query`, over the scan outcome. -/
def DynamoDBDataSource.scan (stringify : Item → String) (tableName : String)
    (tableKeySchema : KeySchema)
    (storeScan : Except (Option String) (List Item)) (ttl : Option Nat) :
    Except (Option String) (List Item) × List CacheEff :=
  match storeScan with
  | Except.error e => (Except.error e, [])
  | Except.ok items =>
    if items.length != 0 && ttlTruthy ttl then
      let cacheKeyItemMap :=
        buildItemsCacheMap CACHE_PREFIX_KEY tableName tableKeySchema items
      (Except.ok items, DynamoDBCacheImpl.setItemsInCache stringify cacheKeyItemMap ttl)
    else
      (Except.ok items, [])

/-- `DynamoDBDataSource.put` (DynamoDBDataSource.ts, lines 114-125): write to
the store (`storePut` is its outcome; a failure propagates); `if (ttl)` derive
the key from the written item via the table key schema and `setInCache`. -/
def DynamoDBDataSource.put (stringify : Item → String) (tableName : String)
    (tableKeySchema : KeySchema) (storePut : Except (Option String) Unit)
    (putItemInput : PutItemInput) (ttl : Option Nat) :
    Except (Option String) Item × List CacheEff :=
  let item := putItemInput.Item
  match storePut with
  | Except.error e => (Except.error e, [])
  | Except.ok _ =>
    if ttlTruthy ttl then
      let key := buildKey tableKeySchema item
      let cacheKey := buildCacheKey CACHE_PREFIX_KEY tableName key
      (Except.ok item, DynamoDBCacheImpl.setInCache stringify cacheKey (some item) ttl)
    else
      (Except.ok item, [])

/-- `DynamoDBDataSource.update` (DynamoDBDataSource.ts, lines 132-142): run the
store update (`storeUpdate` is its outcome; a failure propagates);
`if (updated && ttl)` derive the cache key from the update input's `Key` field
and `setInCache` the post-update record with the ttl. -/
def DynamoDBDataSource.update (stringify : Item → String) (tableName : String)
    (storeUpdate : Except (Option String) (Option Item))
    (updateItemInput : UpdateItemInput) (ttl : Option Nat) :
    Except (Option String) (Option Item) × List CacheEff :=
  match storeUpdate with
  | Except.error e => (Except.error e, [])
  | Except.ok updated =>
    if updated.isSome && ttlTruthy ttl then
      let cacheKey := buildCacheKey CACHE_PREFIX_KEY tableName updateItemInput.Key
      (Except.ok updated, DynamoDBCacheImpl.setInCache stringify cacheKey updated ttl)
    else
      (Except.ok updated, [])

/-- `DynamoDBDataSource.delete` (DynamoDBDataSource.ts, lines 148-155): run the
store delete (`storeDelete` is its outcome; a failure propagates and
short-circuits), then `removeItemFromCache` with the delete input's key. -/
def DynamoDBDataSource.delete (tableName : String)
    (storeDelete : Except (Option String) (Option Item))
    (deleteItemInput : DeleteItemInput) :
    Except (Option String) (Option Item) × List CacheEff :=
  match storeDelete with
  | Except.error e => (Except.error e, [])
  | Except.ok deleted =>
    (Except.ok deleted, DynamoDBCacheImpl.removeItemFromCache tableName deleteItemInput.Key)

/-! ## Helper lemmas -/

/-- Appending on the left commutes out of `String.join`-style folding. -/
theorem strFoldl_hoist (l : List String) :
    ∀ a : String, l.foldl (fun r s => r ++ s) a = a ++ l.foldl (fun r s => r ++ s) "" := by
  induction l with
  | nil => intro a; simp
  | cons x xs ih =>
    intro a
    simp only [List.foldl_cons]
    rw [ih (a ++ x), ih ("" ++ x), String.empty_append, String.append_assoc]

/-- Unfolding `String.join` at a cons cell. -/
theorem strJoin_cons (s : String) (l : List String) :
    String.join (s :: l) = s ++ String.join l := by
  show (s :: l).foldl (fun r t => r ++ t) "" = s ++ l.foldl (fun r t => r ++ t) ""
  simp only [List.foldl_cons, String.empty_append]
  exact strFoldl_hoist l s

/-- The segment fold inside `buildCacheKey` is the concatenation, in entry
order, of the `":" ++ name ++ "-" ++ value` segments. -/
theorem cacheKeySeg_foldl (key : DocKey) :
    ∀ a : String,
      key.foldl (fun accum curr => accum ++ ":" ++ curr.1 ++ "-" ++ jsToStr curr.2) a =
        a ++ String.join (key.map fun c => ":" ++ c.1 ++ "-" ++ jsToStr c.2) := by
  induction key with
  | nil => intro a; simp [String.join]
  | cons x xs ih =>
    intro a
    simp only [List.foldl_cons, List.map_cons]
    rw [ih, strJoin_cons]
    simp [String.append_assoc]

/-- `buildCacheKey` in closed form. -/
theorem buildCacheKey_eq (cachePfx tableName : String) (key : DocKey) :
    buildCacheKey cachePfx tableName key =
      cachePfx ++ tableName ++
        String.join (key.map fun c => ":" ++ c.1 ++ "-" ++ jsToStr c.2) := by
  unfold buildCacheKey
  rw [cacheKeySeg_foldl key ""]
  simp [String.append_assoc, String.empty_append]

/-- `buildCacheKey` starts with the prefix followed by the table name. -/
theorem buildCacheKey_shape (cachePfx tableName : String) (key : DocKey) :
    ∃ sfx, buildCacheKey cachePfx tableName key = cachePfx ++ tableName ++ sfx :=
  ⟨_, buildCacheKey_eq cachePfx tableName key⟩

/-- Looking up a key distinct from the overwritten one is unaffected by the
in-place replacement map. -/
theorem lookup_map_overwrite_ne {β : Type} (m : List (String × β)) (k' : String)
    (v : β) (k : String) (h : k ≠ k') :
    List.lookup k (m.map fun p => if p.1 = k' then (k', v) else p) =
      List.lookup k m := by
  induction m with
  | nil => rfl
  | cons x xs ih =>
    by_cases hx : x.1 = k'
    · simp only [List.map_cons, hx, if_pos rfl]
      have hk : (k == k') = false := by simp [h]
      have hk2 : (k == x.1) = false := by simp [hx, h]
      simp [List.lookup, hk, hk2, ih]
    · simp only [List.map_cons, if_neg hx]
      by_cases hkx : k = x.1
      · simp [List.lookup, hkx]
      · have : (k == x.1) = false := by simp [hkx]
        simp [List.lookup, this, ih]

/-- Association-list lookup skips an entry with a different key. -/
theorem lookup_cons_ne {β : Type} {k a : String} (h : k ≠ a) (b : β)
    (es : List (String × β)) :
    List.lookup k ((a, b) :: es) = List.lookup k es := by
  have hb : (k == a) = false := by simp [h]
  simp [List.lookup, hb]

/-- Association-list lookup finds an entry with a matching key at the head. -/
theorem lookup_cons_self {β : Type} (k : String) (b : β)
    (es : List (String × β)) :
    List.lookup k ((k, b) :: es) = some b := by
  simp [List.lookup]

/-- Looking up the overwritten key after the in-place replacement map yields
the new value, provided the key was present. -/
theorem lookup_map_overwrite_eq {β : Type} (m : List (String × β)) (k' : String)
    (v : β) (h : (List.lookup k' m).isSome) :
    List.lookup k' (m.map fun p => if p.1 = k' then (k', v) else p) = some v := by
  induction m with
  | nil => simp [List.lookup] at h
  | cons x xs ih =>
    by_cases hx : x.1 = k'
    · rw [List.map_cons, if_pos hx]
      exact lookup_cons_self k' v _
    · have hne : k' ≠ x.1 := fun hh => hx hh.symm
      rw [List.map_cons, if_neg hx]
      have h' : (List.lookup k' xs).isSome := by
        cases x with
        | mk a b => rw [lookup_cons_ne hne b xs] at h; exact h
      cases x with
      | mk a b =>
        rw [lookup_cons_ne hne b _]
        exact ih h'

/-- Lookup over an appended association list. -/
theorem lookup_append {β : Type} (l1 l2 : List (String × β)) (k : String) :
    List.lookup k (l1 ++ l2) = (List.lookup k l1).or (List.lookup k l2) := by
  induction l1 with
  | nil => simp [List.lookup]
  | cons x xs ih =>
    by_cases hkx : k = x.1
    · simp [List.lookup, hkx]
    · have : (k == x.1) = false := by simp [hkx]
      simp [List.lookup, this, ih]

/-- JS object update semantics of `jsMapInsert` at the level of lookups:
the inserted key now maps to the new value, all other keys are untouched. -/
theorem jsMapInsert_lookup (m : List (String × Item)) (k' : String) (v : Item)
    (k : String) :
    List.lookup k (jsMapInsert m k' v) =
      if k = k' then some v else List.lookup k m := by
  unfold jsMapInsert
  by_cases hp : (List.lookup k' m).isSome
  · rw [if_pos hp]
    by_cases hk : k = k'
    · subst hk; simp [lookup_map_overwrite_eq m k v hp]
    · simp [lookup_map_overwrite_ne m k' v k hk, hk]
  · rw [if_neg hp]
    rw [lookup_append]
    by_cases hk : k = k'
    · subst hk
      have : List.lookup k m = none := by
        cases hlk : List.lookup k m with
        | none => rfl
        | some b => rw [hlk] at hp; simp at hp
      simp [this, List.lookup]
    · have : (k == k') = false := by simp [hk]
      simp [List.lookup, this, hk]

/-- Lookup in the fold underlying `buildItemsCacheMap`: the last item (searched
from the end via `reverse.find?`) whose derived cache key matches wins,
falling back to the accumulator. -/
theorem buildItemsCacheMap_foldl_lookup (cachePfx tableName : String)
    (ks : KeySchema) (items : List Item) :
    ∀ (acc : List (String × Item)) (k : String),
      List.lookup k (items.foldl (fun accum curr =>
          jsMapInsert accum (buildCacheKey cachePfx tableName (buildKey ks curr)) curr) acc) =
        (items.reverse.find?
          (fun it => buildCacheKey cachePfx tableName (buildKey ks it) == k)).or
          (List.lookup k acc) := by
  induction items with
  | nil => intro acc k; simp
  | cons c rest ih =>
    intro acc k
    have hstep :
        List.lookup k (jsMapInsert acc (buildCacheKey cachePfx tableName (buildKey ks c)) c) =
          (List.find? (fun it => buildCacheKey cachePfx tableName (buildKey ks it) == k) [c]).or
            (List.lookup k acc) := by
      rw [jsMapInsert_lookup]
      by_cases hk : k = buildCacheKey cachePfx tableName (buildKey ks c)
      · have hb : (buildCacheKey cachePfx tableName (buildKey ks c) == k) = true := by
          simp [hk]
        simp [List.find?, hb, hk]
      · have hne : ¬ buildCacheKey cachePfx tableName (buildKey ks c) = k :=
          fun hh => hk hh.symm
        have hb : (buildCacheKey cachePfx tableName (buildKey ks c) == k) = false := by
          simp [hne]
        simp [List.find?, hb, hk]
    rw [List.foldl_cons, ih, hstep, List.reverse_cons, List.find?_append, Option.or_assoc]

/-- Lookup in `buildItemsCacheMap`: the last item in input order whose derived
cache key matches is the one associated with the key. -/
theorem buildItemsCacheMap_lookup (cachePfx tableName : String) (ks : KeySchema)
    (items : List Item) (k : String) :
    List.lookup k (buildItemsCacheMap cachePfx tableName ks items) =
      items.reverse.find?
        (fun it => buildCacheKey cachePfx tableName (buildKey ks it) == k) := by
  unfold buildItemsCacheMap
  rw [buildItemsCacheMap_foldl_lookup]
  simp [List.lookup]

/-- Folding list-append of singletons is a map. -/
theorem foldl_append_map {α β : Type} (f : α → β) (l : List α) :
    ∀ acc : List β, l.foldl (fun a x => a ++ [f x]) acc = acc ++ l.map f := by
  induction l with
  | nil => intro acc; simp
  | cons x xs ih =>
    intro acc
    rw [List.foldl_cons, ih, List.map_cons, List.append_assoc]
    simp

/-- `setItemsInCache` issues exactly one cache `set` per entry of the map, in
entry order, under the wrapper-prefixed key. -/
theorem setItemsInCache_eq (stringify : Item → String)
    (items : List (String × Item)) (ttl : Option Nat) :
    DynamoDBCacheImpl.setItemsInCache stringify items ttl =
      items.map (fun e =>
        CacheEff.set (PrefixingKeyValueCache.wrapKey CACHE_PREFIX_KEY e.1)
          (some (stringify e.2)) (ttl.getD TTL_SEC)) := by
  unfold DynamoDBCacheImpl.setItemsInCache DynamoDBCacheImpl.setInCache
  simp only [Option.map_some']
  rw [foldl_append_map
    (fun e : String × Item =>
      CacheEff.set (PrefixingKeyValueCache.wrapKey CACHE_PREFIX_KEY e.1)
        (some (stringify e.2)) (ttl.getD TTL_SEC)) items []]
  simp

/-- When all derived cache keys are distinct, the fold underlying
`buildItemsCacheMap` only ever appends. -/
theorem buildItemsCacheMap_foldl_nodup (cachePfx tableName : String)
    (ks : KeySchema) (items : List Item) :
    ∀ acc : List (String × Item),
      (∀ i ∈ items,
        List.lookup (buildCacheKey cachePfx tableName (buildKey ks i)) acc = none) →
      (items.map (fun i => buildCacheKey cachePfx tableName (buildKey ks i))).Nodup →
      items.foldl (fun accum curr =>
          jsMapInsert accum (buildCacheKey cachePfx tableName (buildKey ks curr)) curr) acc =
        acc ++ items.map
          (fun i => (buildCacheKey cachePfx tableName (buildKey ks i), i)) := by
  induction items with
  | nil => intro acc _ _; simp
  | cons c rest ih =>
    intro acc hacc hnd
    have hc := hacc c (List.mem_cons_self c rest)
    have hins :
        jsMapInsert acc (buildCacheKey cachePfx tableName (buildKey ks c)) c =
          acc ++ [(buildCacheKey cachePfx tableName (buildKey ks c), c)] := by
      unfold jsMapInsert
      rw [hc]
      simp
    rw [List.map_cons, List.nodup_cons] at hnd
    rw [List.foldl_cons, hins, ih]
    · rw [List.map_cons, List.append_assoc]
      simp
    · intro i hi
      rw [lookup_append, hacc i (List.mem_cons_of_mem c hi)]
      have hne : buildCacheKey cachePfx tableName (buildKey ks i) ≠
          buildCacheKey cachePfx tableName (buildKey ks c) := by
        intro heq
        exact hnd.1 (heq ▸ List.mem_map.mpr ⟨i, hi, rfl⟩)
      rw [lookup_cons_ne hne c []]
      simp [List.lookup]
    · exact hnd.2

/-- When all derived cache keys are distinct, `buildItemsCacheMap` is exactly
one entry per item, in input order, keyed by each item's derived cache key. -/
theorem buildItemsCacheMap_nodup_eq (cachePfx tableName : String)
    (ks : KeySchema) (items : List Item)
    (h : (items.map (fun i => buildCacheKey cachePfx tableName (buildKey ks i))).Nodup) :
    buildItemsCacheMap cachePfx tableName ks items =
      items.map (fun i => (buildCacheKey cachePfx tableName (buildKey ks i), i)) := by
  unfold buildItemsCacheMap
  rw [buildItemsCacheMap_foldl_nodup cachePfx tableName ks items []
    (by intro i _; simp [List.lookup]) h]
  simp

/-- Every entry of `jsMapInsert m k v` has the inserted key or a key already
present in `m`. -/
theorem jsMapInsert_key_mem (m : List (String × Item)) (k : String) (v : Item) :
    ∀ e ∈ jsMapInsert m k v, e.1 = k ∨ ∃ e' ∈ m, e.1 = e'.1 := by
  intro e he
  unfold jsMapInsert at he
  by_cases hp : (List.lookup k m).isSome
  · rw [if_pos hp] at he
    rcases List.mem_map.mp he with ⟨e', he', heq⟩
    by_cases h1 : e'.1 = k
    · left
      rw [← heq, if_pos h1]
    · right
      exact ⟨e', he', by rw [← heq, if_neg h1]⟩
  · rw [if_neg hp] at he
    rcases List.mem_append.mp he with h | h
    · right; exact ⟨e, h, rfl⟩
    · left
      have : e = (k, v) := by simpa using h
      rw [this]

/-- Every key in `buildItemsCacheMap` starts with the given prefix followed by
the table name. -/
theorem buildItemsCacheMap_key_shape (cachePfx tableName : String)
    (ks : KeySchema) (items : List Item) :
    ∀ e ∈ buildItemsCacheMap cachePfx tableName ks items,
      ∃ sfx, e.1 = cachePfx ++ tableName ++ sfx := by
  unfold buildItemsCacheMap
  have aux : ∀ (its : List Item) (acc : List (String × Item)),
      (∀ e ∈ acc, ∃ sfx, e.1 = cachePfx ++ tableName ++ sfx) →
      ∀ e ∈ its.foldl (fun accum curr =>
          jsMapInsert accum (buildCacheKey cachePfx tableName (buildKey ks curr)) curr) acc,
        ∃ sfx, e.1 = cachePfx ++ tableName ++ sfx := by
    intro its
    induction its with
    | nil => intro acc h; simpa using h
    | cons c rest ih =>
      intro acc h e he
      rw [List.foldl_cons] at he
      refine ih (jsMapInsert acc (buildCacheKey cachePfx tableName (buildKey ks c)) c) ?_ e he
      intro e' he'
      rcases jsMapInsert_key_mem acc (buildCacheKey cachePfx tableName (buildKey ks c)) c e' he'
        with h1 | ⟨e'', he'', heq⟩
      · rw [h1]; exact buildCacheKey_shape cachePfx tableName (buildKey ks c)
      · rw [heq]; exact h e'' he''
  exact aux items [] (by intro e he; simp at he)

/-- A cache hit in `retrieveFromCache`: a present, non-empty, parseable cached
string is returned deserialized, with a single cache `get` issued. -/
theorem retrieveFromCache_hit (kvGet : String → Except Unit (Option String))
    (parse : String → Option Item) (key : String) (s : String) (v : Item)
    (h1 : kvGet (PrefixingKeyValueCache.wrapKey CACHE_PREFIX_KEY key) = Except.ok (some s))
    (h2 : s ≠ "") (h3 : parse s = some v) :
    DynamoDBCacheImpl.retrieveFromCache kvGet parse key =
      (some v, [CacheEff.get (PrefixingKeyValueCache.wrapKey CACHE_PREFIX_KEY key)]) := by
  unfold DynamoDBCacheImpl.retrieveFromCache
  simp [h1, h2, h3]

/-- A failing cache read in `retrieveFromCache` — the cache client throwing, or
a non-empty cached string failing to parse — is swallowed and yields a miss,
with a single cache `get` issued. -/
theorem retrieveFromCache_fail (kvGet : String → Except Unit (Option String))
    (parse : String → Option Item) (key : String)
    (h : kvGet (PrefixingKeyValueCache.wrapKey CACHE_PREFIX_KEY key) = Except.error () ∨
      ∃ s, kvGet (PrefixingKeyValueCache.wrapKey CACHE_PREFIX_KEY key) = Except.ok (some s) ∧
        s ≠ "" ∧ parse s = none) :
    DynamoDBCacheImpl.retrieveFromCache kvGet parse key =
      (none, [CacheEff.get (PrefixingKeyValueCache.wrapKey CACHE_PREFIX_KEY key)]) := by
  unfold DynamoDBCacheImpl.retrieveFromCache
  rcases h with h | ⟨s, h1, h2, h3⟩
  · simp [h]
  · simp [h1, h2, h3]

/-- `getItem` with its `let` bindings expanded (definitional). -/
theorem getItem_eq (kvGet : String → Except Unit (Option String))
    (parse : String → Option Item) (stringify : Item → String)
    (storeGet : Except (Option String) (Option Item)) (inp : GetItemInput)
    (ttl : Option Nat) :
    DynamoDBCacheImpl.getItem kvGet parse stringify storeGet inp ttl =
      match (DynamoDBCacheImpl.retrieveFromCache kvGet parse
          (buildCacheKey CACHE_PREFIX_KEY inp.TableName inp.Key)).1 with
      | some itemFromCache =>
        (Except.ok (some itemFromCache),
         (DynamoDBCacheImpl.retrieveFromCache kvGet parse
           (buildCacheKey CACHE_PREFIX_KEY inp.TableName inp.Key)).2, 0)
      | none =>
        match storeGet with
        | Except.error msg =>
          (Except.error (apolloErrorOf msg "An error occurred attempting to retrieve the item"),
           (DynamoDBCacheImpl.retrieveFromCache kvGet parse
             (buildCacheKey CACHE_PREFIX_KEY inp.TableName inp.Key)).2, 1)
        | Except.ok item =>
          (Except.ok item,
           (DynamoDBCacheImpl.retrieveFromCache kvGet parse
               (buildCacheKey CACHE_PREFIX_KEY inp.TableName inp.Key)).2 ++
             DynamoDBCacheImpl.setInCache stringify
               (buildCacheKey CACHE_PREFIX_KEY inp.TableName inp.Key) item ttl, 1) := rfl

/-! ## Concrete instances used by witnesses and counterexamples -/

/-- A demonstration record. -/
def demoItem : Item := [("id", AttrVal.s "testId"), ("test", AttrVal.s "testing")]

/-- A second record equal to `demoItem` on the key attribute but not elsewhere. -/
def demoItem2 : Item := [("id", AttrVal.s "testId"), ("test", AttrVal.s "other")]

/-- A hash-only demonstration key schema. -/
def demoSchema : KeySchema := [KeySchemaElement.mk "id" "HASH"]

/-- A demonstration serializer (witnesses quantify over the serializer, so any
concrete function will do). -/
def demoStringify : Item → String := fun i => toString i.length

/-- A demonstration deserializer: recognizes one cached payload. -/
def demoParse : String → Option Item :=
  fun s => if s = "CACHED" then some demoItem else none

/-- A cache client whose every read hits with the recognized payload. -/
def demoKvHit : String → Except Unit (Option String) := fun _ => Except.ok (some "CACHED")

/-- A cache client whose every read misses. -/
def demoKvMiss : String → Except Unit (Option String) := fun _ => Except.ok none

/-- A cache client whose every read throws. -/
def demoKvErr : String → Except Unit (Option String) := fun _ => Except.error ()

/-- A demonstration `GetItemInput`. -/
def demoGetInput : GetItemInput :=
  GetItemInput.mk "test_hash_only" [("id", some (AttrVal.s "testId"))]

/-! ## Claims -/

/-- C2: for every `getItem` input whose derived cache key has a cached record
(the underlying cache client returns a non-empty string at the wrapped derived
key, and it deserializes), `getItem` returns the deserialized cached record,
issues no backing-store read, and performs no cache write (the whole
cache-client trace is a single `get`). -/
theorem claim_C2 (kvGet : String → Except Unit (Option String))
    (parse : String → Option Item) (stringify : Item → String)
    (storeGet : Except (Option String) (Option Item)) (inp : GetItemInput)
    (ttl : Option Nat) (s : String) (v : Item)
    (h1 : kvGet (PrefixingKeyValueCache.wrapKey CACHE_PREFIX_KEY
      (buildCacheKey CACHE_PREFIX_KEY inp.TableName inp.Key)) = Except.ok (some s))
    (h2 : s ≠ "") (h3 : parse s = some v) :
    DynamoDBCacheImpl.getItem kvGet parse stringify storeGet inp ttl =
      (Except.ok (some v),
       [CacheEff.get (PrefixingKeyValueCache.wrapKey CACHE_PREFIX_KEY
          (buildCacheKey CACHE_PREFIX_KEY inp.TableName inp.Key))], 0) := by
  rw [getItem_eq, retrieveFromCache_hit kvGet parse _ s v h1 h2 h3]

/-- C2 witness: a concrete cache hit returns the cached record with zero
backing-store reads even though the store would throw. -/
theorem claim_C2_witness :
    DynamoDBCacheImpl.getItem demoKvHit demoParse demoStringify
        (Except.error (some "store exploded")) demoGetInput (some 60) =
      (Except.ok (some demoItem),
       [CacheEff.get (PrefixingKeyValueCache.wrapKey CACHE_PREFIX_KEY
          (buildCacheKey CACHE_PREFIX_KEY demoGetInput.TableName demoGetInput.Key))], 0) :=
  claim_C2 demoKvHit demoParse demoStringify (Except.error (some "store exploded"))
    demoGetInput (some 60) "CACHED" demoItem rfl (by decide) rfl

/-- C3: for every `getItem` input, a failing cache read — the cache client
throwing, or a stored non-empty string failing to deserialize — is swallowed
and treated as a miss: the backing store is read exactly once, a successful
store read determines the result, and only a genuine store failure surfaces
(as an `ApolloError`); the cache-read error itself is never surfaced. -/
theorem claim_C3 (kvGet : String → Except Unit (Option String))
    (parse : String → Option Item) (stringify : Item → String)
    (storeGet : Except (Option String) (Option Item)) (inp : GetItemInput)
    (ttl : Option Nat)
    (h : kvGet (PrefixingKeyValueCache.wrapKey CACHE_PREFIX_KEY
        (buildCacheKey CACHE_PREFIX_KEY inp.TableName inp.Key)) = Except.error () ∨
      ∃ s, kvGet (PrefixingKeyValueCache.wrapKey CACHE_PREFIX_KEY
          (buildCacheKey CACHE_PREFIX_KEY inp.TableName inp.Key)) = Except.ok (some s) ∧
        s ≠ "" ∧ parse s = none) :
    (DynamoDBCacheImpl.getItem kvGet parse stringify storeGet inp ttl).2.2 = 1 ∧
    (∀ item?, storeGet = Except.ok item? →
      (DynamoDBCacheImpl.getItem kvGet parse stringify storeGet inp ttl).1 =
        Except.ok item?) ∧
    (∀ m, storeGet = Except.error m →
      (DynamoDBCacheImpl.getItem kvGet parse stringify storeGet inp ttl).1 =
        Except.error (apolloErrorOf m "An error occurred attempting to retrieve the item")) := by
  have hr := retrieveFromCache_fail kvGet parse
    (buildCacheKey CACHE_PREFIX_KEY inp.TableName inp.Key) h
  refine ⟨?_, ?_, ?_⟩
  · rw [getItem_eq, hr]
    cases storeGet <;> rfl
  · intro item? hs
    subst hs
    rw [getItem_eq, hr]
  · intro m hs
    subst hs
    rw [getItem_eq, hr]

/-- C3 witness: a concrete throwing cache read falls through to a successful
store fetch (one store read, no error). -/
theorem claim_C3_witness :
    (DynamoDBCacheImpl.getItem demoKvErr demoParse demoStringify
        (Except.ok (some demoItem)) demoGetInput (some 60)).2.2 = 1 ∧
    (DynamoDBCacheImpl.getItem demoKvErr demoParse demoStringify
        (Except.ok (some demoItem)) demoGetInput (some 60)).1 =
      Except.ok (some demoItem) :=
  ⟨(claim_C3 demoKvErr demoParse demoStringify (Except.ok (some demoItem))
      demoGetInput (some 60) (Or.inl rfl)).1,
   (claim_C3 demoKvErr demoParse demoStringify (Except.ok (some demoItem))
      demoGetInput (some 60) (Or.inl rfl)).2.1 (some demoItem) rfl⟩

/-- C4: `buildCacheKey` returns exactly the prefix, then the table name, then
one `":" ++ name ++ "-" ++ value` segment per key attribute in entry order; it
is deterministic; and the documented example evaluates as claimed (schema
`[{id, PARTITION}, {ts, SORT}]` — `HASH`/`RANGE` in the code — with record
`{id:"x", ts:"2020", v:1}`, prefix `"c:"`, table `"t"`). -/
theorem claim_C4 :
    (∀ (cachePfx tableName : String) (key : DocKey),
      buildCacheKey cachePfx tableName key =
        cachePfx ++ tableName ++
          String.join (key.map fun c => ":" ++ c.1 ++ "-" ++ jsToStr c.2)) ∧
    (∀ (p1 t1 : String) (k1 : DocKey) (p2 t2 : String) (k2 : DocKey),
      p1 = p2 → t1 = t2 → k1 = k2 →
        buildCacheKey p1 t1 k1 = buildCacheKey p2 t2 k2) ∧
    buildCacheKey "c:" "t"
        (buildKey [KeySchemaElement.mk "id" "HASH", KeySchemaElement.mk "ts" "RANGE"]
          [("id", AttrVal.s "x"), ("ts", AttrVal.s "2020"), ("v", AttrVal.n 1)]) =
      "c:t:id-x:ts-2020" := by
  refine ⟨buildCacheKey_eq, ?_, ?_⟩
  · intro p1 t1 k1 p2 t2 k2 hp ht hk
    rw [hp, ht, hk]
  · rfl

/-- C4 witness: determinism applied at a concrete input. -/
theorem claim_C4_witness :
    buildCacheKey "c:" "t" [("id", some (AttrVal.s "x"))] =
      buildCacheKey "c:" "t" [("id", some (AttrVal.s "x"))] :=
  claim_C4.2.1 "c:" "t" [("id", some (AttrVal.s "x"))] "c:" "t"
    [("id", some (AttrVal.s "x"))] rfl rfl rfl

/-- `buildKey` depends only on the looked-up values of the schema's attributes. -/
theorem buildKey_congr (ks : KeySchema) (r1 r2 : Item)
    (h : ∀ e ∈ ks, List.lookup e.AttributeName r1 = List.lookup e.AttributeName r2) :
    buildKey ks r1 = buildKey ks r2 := by
  unfold buildKey
  have aux : ∀ (l : KeySchema) (acc : DocKey),
      (∀ e ∈ l, List.lookup e.AttributeName r1 = List.lookup e.AttributeName r2) →
      l.foldl (fun prevKeys keyElement =>
        jsObjInsert prevKeys keyElement.AttributeName
          (List.lookup keyElement.AttributeName r1)) acc =
      l.foldl (fun prevKeys keyElement =>
        jsObjInsert prevKeys keyElement.AttributeName
          (List.lookup keyElement.AttributeName r2)) acc := by
    intro l
    induction l with
    | nil => intro acc _; rfl
    | cons e rest ih =>
      intro acc hl
      simp only [List.foldl_cons]
      rw [hl e (List.mem_cons_self e rest)]
      exact ih _ (fun e' he' => hl e' (List.mem_cons_of_mem e he'))
  exact aux ks [] h

/-- C5: for every key schema, prefix, table name, and pair of records agreeing
on every attribute named in the schema, the derived cache key
`buildCacheKey(prefix, table, buildKey(schema, record))` is the same for both:
a non-key attribute never influences the derived cache key. -/
theorem claim_C5 (ks : KeySchema) (cachePfx tableName : String) (r1 r2 : Item)
    (h : ∀ e ∈ ks, List.lookup e.AttributeName r1 = List.lookup e.AttributeName r2) :
    buildCacheKey cachePfx tableName (buildKey ks r1) =
      buildCacheKey cachePfx tableName (buildKey ks r2) := by
  rw [buildKey_congr ks r1 r2 h]

/-- C5 witness: two concrete records that differ only in the non-key attribute
`test` derive the same cache key. -/
theorem claim_C5_witness :
    (∀ e ∈ demoSchema,
      List.lookup e.AttributeName demoItem = List.lookup e.AttributeName demoItem2) ∧
    buildCacheKey "c:" "t" (buildKey demoSchema demoItem) =
      buildCacheKey "c:" "t" (buildKey demoSchema demoItem2) :=
  ⟨by decide, claim_C5 demoSchema "c:" "t" demoItem demoItem2 (by decide)⟩

/-- C7: `update` writes a cache entry iff a (truthy, i.e. nonzero) ttl is
supplied and the store returned a non-absent post-update record; when it
writes, the single cache `set` is keyed by the cache key derived from the
update input's `Key` field and stores the post-update record with that ttl. -/
theorem claim_C7 (stringify : Item → String) (tableName : String)
    (storeUpdate : Except (Option String) (Option Item))
    (inp : UpdateItemInput) (ttl : Option Nat) :
    ((DynamoDBDataSource.update stringify tableName storeUpdate inp ttl).2 ≠ [] ↔
      (∃ t, ttl = some t ∧ t ≠ 0) ∧ ∃ u, storeUpdate = Except.ok (some u)) ∧
    (∀ t u, ttl = some t → t ≠ 0 → storeUpdate = Except.ok (some u) →
      (DynamoDBDataSource.update stringify tableName storeUpdate inp ttl).2 =
        [CacheEff.set (PrefixingKeyValueCache.wrapKey CACHE_PREFIX_KEY
            (buildCacheKey CACHE_PREFIX_KEY tableName inp.Key))
          (some (stringify u)) t]) := by
  constructor
  · cases storeUpdate with
    | error e => simp [DynamoDBDataSource.update]
    | ok updated =>
      cases updated with
      | none => simp [DynamoDBDataSource.update]
      | some u =>
        cases ttl with
        | none => simp [DynamoDBDataSource.update, ttlTruthy]
        | some t =>
          by_cases ht : t = 0
          · subst ht
            simp [DynamoDBDataSource.update, ttlTruthy]
          · simp [DynamoDBDataSource.update, ttlTruthy, ht,
              DynamoDBCacheImpl.setInCache]
  · intro t u h1 h2 h3
    subst h1
    subst h3
    simp [DynamoDBDataSource.update, ttlTruthy, h2, DynamoDBCacheImpl.setInCache]

/-- C7 witness: a concrete update with ttl 60 and a returned record writes
exactly the derived-key cache entry. -/
theorem claim_C7_witness :
    (DynamoDBDataSource.update demoStringify "test_hash_only"
        (Except.ok (some demoItem))
        (UpdateItemInput.mk "test_hash_only" [("id", some (AttrVal.s "testId"))])
        (some 60)).2 =
      [CacheEff.set (PrefixingKeyValueCache.wrapKey CACHE_PREFIX_KEY
          (buildCacheKey CACHE_PREFIX_KEY "test_hash_only"
            (UpdateItemInput.mk "test_hash_only" [("id", some (AttrVal.s "testId"))]).Key))
        (some (demoStringify demoItem)) 60] :=
  (claim_C7 demoStringify "test_hash_only" (Except.ok (some demoItem))
      (UpdateItemInput.mk "test_hash_only" [("id", some (AttrVal.s "testId"))])
      (some 60)).2 60 demoItem rfl (by decide) rfl

/-- C8: for every delete input, if the backing-store delete succeeds, exactly
one cache eviction (`delete` on the cache client, at the wrapped derived key)
is attempted, whether or not the store returned a pre-delete record; if the
backing-store delete fails, no cache operation is attempted at all. -/
theorem claim_C8 (tableName : String)
    (storeDelete : Except (Option String) (Option Item)) (inp : DeleteItemInput) :
    (∀ d, storeDelete = Except.ok d →
      (DynamoDBDataSource.delete tableName storeDelete inp).2 =
        [CacheEff.del (PrefixingKeyValueCache.wrapKey CACHE_PREFIX_KEY
          (buildCacheKey CACHE_PREFIX_KEY tableName inp.Key))]) ∧
    (∀ e, storeDelete = Except.error e →
      (DynamoDBDataSource.delete tableName storeDelete inp).2 = []) := by
  constructor
  · intro d hd
    subst hd
    simp [DynamoDBDataSource.delete, DynamoDBCacheImpl.removeItemFromCache]
  · intro e he
    subst he
    simp [DynamoDBDataSource.delete]

/-- C8 witness: a successful store delete that returned no record still
attempts exactly one eviction; a failing store delete attempts none. -/
theorem claim_C8_witness :
    (DynamoDBDataSource.delete "test_hash_only" (Except.ok none)
        (DeleteItemInput.mk "test_hash_only" [("id", some (AttrVal.s "testId"))])).2 =
      [CacheEff.del (PrefixingKeyValueCache.wrapKey CACHE_PREFIX_KEY
        (buildCacheKey CACHE_PREFIX_KEY "test_hash_only"
          (DeleteItemInput.mk "test_hash_only" [("id", some (AttrVal.s "testId"))]).Key))] ∧
    (DynamoDBDataSource.delete "test_hash_only" (Except.error (some "boom"))
        (DeleteItemInput.mk "test_hash_only" [("id", some (AttrVal.s "testId"))])).2 = [] :=
  ⟨(claim_C8 "test_hash_only" (Except.ok none)
      (DeleteItemInput.mk "test_hash_only" [("id", some (AttrVal.s "testId"))])).1 none rfl,
   (claim_C8 "test_hash_only" (Except.error (some "boom"))
      (DeleteItemInput.mk "test_hash_only" [("id", some (AttrVal.s "testId"))])).2
     (some "boom") rfl⟩

/-- C9: in the mapping returned by `buildItemsCacheMap`, the record associated
with a cache key is the last record in input order whose derived cache key
matches (`reverse.find?` searches from the end): on duplicate derived primary
keys, the later record overwrites the earlier. -/
theorem claim_C9 (cachePfx tableName : String) (ks : KeySchema)
    (items : List Item) (k : String) :
    List.lookup k (buildItemsCacheMap cachePfx tableName ks items) =
      items.reverse.find?
        (fun it => buildCacheKey cachePfx tableName (buildKey ks it) == k) :=
  buildItemsCacheMap_lookup cachePfx tableName ks items k

/-- `retrieveFromCache` always issues exactly one cache-client `get`, at the
wrapped key, whatever the outcome. -/
theorem retrieveFromCache_trace (kvGet : String → Except Unit (Option String))
    (parse : String → Option Item) (key : String) :
    (DynamoDBCacheImpl.retrieveFromCache kvGet parse key).2 =
      [CacheEff.get (PrefixingKeyValueCache.wrapKey CACHE_PREFIX_KEY key)] := by
  unfold DynamoDBCacheImpl.retrieveFromCache
  rcases h : kvGet (PrefixingKeyValueCache.wrapKey CACHE_PREFIX_KEY key) with e | s?
  · simp [h]
  · rcases s? with _ | s
    · simp [h]
    · by_cases h2 : s = ""
      · simp [h, h2]
      · rcases h3 : parse s with _ | v
        · simp [h, h2, h3]
        · simp [h, h2, h3]

/-- C1 counterexample: `getItem` with NO ttl supplied, a cache miss, and a
successful store fetch still performs a cache write (with the default
`TTL_SEC = 1800`), so "no TTL ⇒ no cache write" fails for the `get` operation. -/
theorem claim_C1_counterexample :
    (DynamoDBCacheImpl.getItem demoKvMiss demoParse demoStringify
        (Except.ok (some demoItem)) demoGetInput none).2.1 =
      [CacheEff.get "dynamodbcache:dynamodbcache:test_hash_only:id-testId",
       CacheEff.set "dynamodbcache:dynamodbcache:test_hash_only:id-testId"
         (some "2") 1800] ∧
    setCount (DynamoDBCacheImpl.getItem demoKvMiss demoParse demoStringify
        (Except.ok (some demoItem)) demoGetInput none).2.1 ≠ 0 := by
  constructor
  · rfl
  · decide

/-- C1 (amended): with no ttl supplied, `query`, `scan`, `put`, `update`
perform no cache write, and `delete` performs none either (its only cache
operation is an eviction); but `get` on a cache miss DOES write the fetched
item (present or absent) to the cache with the default `TTL_SEC`, even though
the caller supplied no ttl. -/
theorem claim_C1_amended :
    (∀ (stringify : Item → String) (tableName : String) (ks : KeySchema)
        (sq : Except (Option String) (List Item)),
      (DynamoDBDataSource.query stringify tableName ks sq none).2 = []) ∧
    (∀ (stringify : Item → String) (tableName : String) (ks : KeySchema)
        (ss : Except (Option String) (List Item)),
      (DynamoDBDataSource.scan stringify tableName ks ss none).2 = []) ∧
    (∀ (stringify : Item → String) (tableName : String) (ks : KeySchema)
        (sp : Except (Option String) Unit) (inp : PutItemInput),
      (DynamoDBDataSource.put stringify tableName ks sp inp none).2 = []) ∧
    (∀ (stringify : Item → String) (tableName : String)
        (su : Except (Option String) (Option Item)) (inp : UpdateItemInput),
      (DynamoDBDataSource.update stringify tableName su inp none).2 = []) ∧
    (∀ (tableName : String) (sd : Except (Option String) (Option Item))
        (inp : DeleteItemInput),
      setCount (DynamoDBDataSource.delete tableName sd inp).2 = 0) ∧
    (∀ (kvGet : String → Except Unit (Option String)) (parse : String → Option Item)
        (stringify : Item → String) (item? : Option Item) (inp : GetItemInput),
      (DynamoDBCacheImpl.retrieveFromCache kvGet parse
        (buildCacheKey CACHE_PREFIX_KEY inp.TableName inp.Key)).1 = none →
      (DynamoDBDataSource.getItem kvGet parse stringify (Except.ok item?) inp none).2.1 =
        [CacheEff.get (PrefixingKeyValueCache.wrapKey CACHE_PREFIX_KEY
            (buildCacheKey CACHE_PREFIX_KEY inp.TableName inp.Key)),
         CacheEff.set (PrefixingKeyValueCache.wrapKey CACHE_PREFIX_KEY
            (buildCacheKey CACHE_PREFIX_KEY inp.TableName inp.Key))
          (item?.map stringify) TTL_SEC]) := by
  refine ⟨?_, ?_, ?_, ?_, ?_, ?_⟩
  · intro stringify tableName ks sq
    cases sq with
    | error e => rfl
    | ok items => simp [DynamoDBDataSource.query, ttlTruthy]
  · intro stringify tableName ks ss
    cases ss with
    | error e => rfl
    | ok items => simp [DynamoDBDataSource.scan, ttlTruthy]
  · intro stringify tableName ks sp inp
    cases sp with
    | error e => rfl
    | ok u => simp [DynamoDBDataSource.put, ttlTruthy]
  · intro stringify tableName su inp
    cases su with
    | error e => rfl
    | ok updated => simp [DynamoDBDataSource.update, ttlTruthy]
  · intro tableName sd inp
    cases sd with
    | error e => rfl
    | ok d =>
      simp [DynamoDBDataSource.delete, DynamoDBCacheImpl.removeItemFromCache,
        setCount, CacheEff.isSet, List.filter]
  · intro kvGet parse stringify item? inp hmiss
    show (DynamoDBCacheImpl.getItem kvGet parse stringify (Except.ok item?) inp none).2.1 = _
    rw [getItem_eq, retrieveFromCache_trace, hmiss]
    simp [DynamoDBCacheImpl.setInCache]

/-- C1 amended witness: concrete instances — `query` without ttl writes
nothing; `get` without ttl on a miss still writes with the default ttl. -/
theorem claim_C1_amended_witness :
    (DynamoDBDataSource.query demoStringify "t" demoSchema
      (Except.ok [demoItem]) none).2 = [] ∧
    (DynamoDBDataSource.getItem demoKvMiss demoParse demoStringify
        (Except.ok (some demoItem)) demoGetInput none).2.1 =
      [CacheEff.get (PrefixingKeyValueCache.wrapKey CACHE_PREFIX_KEY
          (buildCacheKey CACHE_PREFIX_KEY demoGetInput.TableName demoGetInput.Key)),
       CacheEff.set (PrefixingKeyValueCache.wrapKey CACHE_PREFIX_KEY
          (buildCacheKey CACHE_PREFIX_KEY demoGetInput.TableName demoGetInput.Key))
        ((some demoItem).map demoStringify) TTL_SEC] :=
  ⟨claim_C1_amended.1 demoStringify "t" demoSchema (Except.ok [demoItem]),
   claim_C1_amended.2.2.2.2.2 demoKvMiss demoParse demoStringify (some demoItem)
     demoGetInput rfl⟩

/-- Two records with the same primary key (`id = "x"`) and different non-key
attributes. -/
def demoDup1 : Item := [("id", AttrVal.s "x"), ("v", AttrVal.n 1)]

/-- Second record colliding with `demoDup1` on the derived cache key. -/
def demoDup2 : Item := [("id", AttrVal.s "x"), ("v", AttrVal.n 2)]

/-- C6 counterexample: a `query` returning N = 2 records that collide on the
derived primary key performs only 1 cache write (the duplicates are collapsed
by `buildItemsCacheMap`), not "exactly N". -/
theorem claim_C6_counterexample :
    ([demoDup1, demoDup2] : List Item).length = 2 ∧
    setCount (DynamoDBDataSource.query demoStringify "t" demoSchema
        (Except.ok [demoDup1, demoDup2]) (some 60)).2 = 1 := by
  constructor
  · rfl
  · rfl

/-- C6 (amended): for `query` and `scan`, when a truthy (nonzero) ttl is
supplied and the store returns N > 0 records whose derived cache keys are
pairwise distinct, exactly N cache writes occur, one per returned record and
keyed by that record's derived primary key (records colliding on a derived key
are collapsed, the later record overwriting the earlier — see the
`buildItemsCacheMap` tie-break); with an empty result, or with no ttl,
zero cache writes occur. -/
theorem claim_C6_amended :
    (∀ (stringify : Item → String) (tableName : String) (ks : KeySchema)
        (items : List Item) (t : Nat), t ≠ 0 → items ≠ [] →
      (items.map (fun i => buildCacheKey CACHE_PREFIX_KEY tableName (buildKey ks i))).Nodup →
      (DynamoDBDataSource.query stringify tableName ks (Except.ok items) (some t)).2 =
        items.map (fun i =>
          CacheEff.set (PrefixingKeyValueCache.wrapKey CACHE_PREFIX_KEY
              (buildCacheKey CACHE_PREFIX_KEY tableName (buildKey ks i)))
            (some (stringify i)) t)) ∧
    (∀ (stringify : Item → String) (tableName : String) (ks : KeySchema)
        (items : List Item) (t : Nat), t ≠ 0 → items ≠ [] →
      (items.map (fun i => buildCacheKey CACHE_PREFIX_KEY tableName (buildKey ks i))).Nodup →
      (DynamoDBDataSource.scan stringify tableName ks (Except.ok items) (some t)).2 =
        items.map (fun i =>
          CacheEff.set (PrefixingKeyValueCache.wrapKey CACHE_PREFIX_KEY
              (buildCacheKey CACHE_PREFIX_KEY tableName (buildKey ks i)))
            (some (stringify i)) t)) ∧
    (∀ (stringify : Item → String) (tableName : String) (ks : KeySchema)
        (ttl : Option Nat),
      (DynamoDBDataSource.query stringify tableName ks (Except.ok []) ttl).2 = []) ∧
    (∀ (stringify : Item → String) (tableName : String) (ks : KeySchema)
        (ttl : Option Nat),
      (DynamoDBDataSource.scan stringify tableName ks (Except.ok []) ttl).2 = []) ∧
    (∀ (stringify : Item → String) (tableName : String) (ks : KeySchema)
        (sq : Except (Option String) (List Item)),
      (DynamoDBDataSource.query stringify tableName ks sq none).2 = []) ∧
    (∀ (stringify : Item → String) (tableName : String) (ks : KeySchema)
        (ss : Except (Option String) (List Item)),
      (DynamoDBDataSource.scan stringify tableName ks ss none).2 = []) := by
  refine ⟨?_, ?_, ?_, ?_, ?_, ?_⟩
  · intro stringify tableName ks items t ht hitems hnd
    have hlen : items.length ≠ 0 := fun h0 => hitems (List.length_eq_zero.mp h0)
    have hcond : (items.length != 0 && ttlTruthy (some t)) = true := by
      simp [ttlTruthy, hlen, ht]
    simp only [DynamoDBDataSource.query]
    rw [if_pos hcond, buildItemsCacheMap_nodup_eq _ _ _ _ hnd, setItemsInCache_eq,
      List.map_map]
    simp [Function.comp]
  · intro stringify tableName ks items t ht hitems hnd
    have hlen : items.length ≠ 0 := fun h0 => hitems (List.length_eq_zero.mp h0)
    have hcond : (items.length != 0 && ttlTruthy (some t)) = true := by
      simp [ttlTruthy, hlen, ht]
    simp only [DynamoDBDataSource.scan]
    rw [if_pos hcond, buildItemsCacheMap_nodup_eq _ _ _ _ hnd, setItemsInCache_eq,
      List.map_map]
    simp [Function.comp]
  · intro stringify tableName ks ttl
    simp [DynamoDBDataSource.query]
  · intro stringify tableName ks ttl
    simp [DynamoDBDataSource.scan]
  · intro stringify tableName ks sq
    cases sq with
    | error e => rfl
    | ok items => simp [DynamoDBDataSource.query, ttlTruthy]
  · intro stringify tableName ks ss
    cases ss with
    | error e => rfl
    | ok items => simp [DynamoDBDataSource.scan, ttlTruthy]

/-- C6 amended witness: one distinct-keyed record with ttl 60 produces exactly
one cache write keyed by its derived primary key. -/
theorem claim_C6_amended_witness :
    (DynamoDBDataSource.query demoStringify "t" demoSchema
        (Except.ok [demoItem]) (some 60)).2 =
      [demoItem].map (fun i =>
        CacheEff.set (PrefixingKeyValueCache.wrapKey CACHE_PREFIX_KEY
            (buildCacheKey CACHE_PREFIX_KEY "t" (buildKey demoSchema i)))
          (some (demoStringify i)) 60) :=
  claim_C6_amended.1 demoStringify "t" demoSchema [demoItem] 60 (by decide)
    (by decide) (by decide)

/-- The wrapper-prefixed derived cache key carries the `dynamodbcache:` prefix
twice: once from `buildCacheKey` and once from the `PrefixingKeyValueCache`. -/
theorem wrapKey_shape (tableName : String) (key : DocKey) :
    ∃ sfx, PrefixingKeyValueCache.wrapKey CACHE_PREFIX_KEY
        (buildCacheKey CACHE_PREFIX_KEY tableName key) =
      "dynamodbcache:" ++ "dynamodbcache:" ++ tableName ++ sfx := by
  obtain ⟨sfx, hs⟩ := buildCacheKey_shape CACHE_PREFIX_KEY tableName key
  refine ⟨sfx, ?_⟩
  unfold PrefixingKeyValueCache.wrapKey
  rw [hs]
  unfold CACHE_PREFIX_KEY
  simp only [← String.append_assoc]

/-- Every key `getItem` passes to the underlying cache client is doubly
prefixed and carries the input's table name. -/
theorem getItem_key_shape (kvGet : String → Except Unit (Option String))
    (parse : String → Option Item) (stringify : Item → String)
    (storeGet : Except (Option String) (Option Item)) (inp : GetItemInput)
    (ttl : Option Nat) :
    ∀ e ∈ (DynamoDBCacheImpl.getItem kvGet parse stringify storeGet inp ttl).2.1,
      ∃ sfx, CacheEff.key e =
        "dynamodbcache:" ++ "dynamodbcache:" ++ inp.TableName ++ sfx := by
  intro e he
  rw [getItem_eq, retrieveFromCache_trace] at he
  cases hm : (DynamoDBCacheImpl.retrieveFromCache kvGet parse
      (buildCacheKey CACHE_PREFIX_KEY inp.TableName inp.Key)).1 with
  | some v =>
    rw [hm] at he
    simp only [List.mem_singleton] at he
    subst he
    exact wrapKey_shape inp.TableName inp.Key
  | none =>
    rw [hm] at he
    cases storeGet with
    | error m =>
      simp only [List.mem_singleton] at he
      subst he
      exact wrapKey_shape inp.TableName inp.Key
    | ok item =>
      simp only [DynamoDBCacheImpl.setInCache, List.mem_append,
        List.mem_singleton] at he
      rcases he with he | he
      · subst he
        exact wrapKey_shape inp.TableName inp.Key
      · subst he
        exact wrapKey_shape inp.TableName inp.Key

/-- Every key `query` passes to the underlying cache client is doubly prefixed
and carries the table name. -/
theorem query_key_shape (stringify : Item → String) (tableName : String)
    (ks : KeySchema) (sq : Except (Option String) (List Item)) (ttl : Option Nat) :
    ∀ e ∈ (DynamoDBDataSource.query stringify tableName ks sq ttl).2,
      ∃ sfx, CacheEff.key e =
        "dynamodbcache:" ++ "dynamodbcache:" ++ tableName ++ sfx := by
  intro e he
  cases sq with
  | error m => simp [DynamoDBDataSource.query] at he
  | ok items =>
    simp only [DynamoDBDataSource.query] at he
    by_cases hc : (items.length != 0 && ttlTruthy ttl) = true
    · rw [if_pos hc, setItemsInCache_eq] at he
      rcases List.mem_map.mp he with ⟨entry, hentry, hfe⟩
      obtain ⟨sfx, hsfx⟩ :=
        buildItemsCacheMap_key_shape CACHE_PREFIX_KEY tableName ks items entry hentry
      refine ⟨sfx, ?_⟩
      rw [← hfe]
      show PrefixingKeyValueCache.wrapKey CACHE_PREFIX_KEY entry.1 = _
      unfold PrefixingKeyValueCache.wrapKey
      rw [hsfx]
      unfold CACHE_PREFIX_KEY
      simp only [← String.append_assoc]
    · rw [if_neg hc] at he
      simp at he

/-- Every key `scan` passes to the underlying cache client is doubly prefixed
and carries the table name. -/
theorem scan_key_shape (stringify : Item → String) (tableName : String)
    (ks : KeySchema) (ss : Except (Option String) (List Item)) (ttl : Option Nat) :
    ∀ e ∈ (DynamoDBDataSource.scan stringify tableName ks ss ttl).2,
      ∃ sfx, CacheEff.key e =
        "dynamodbcache:" ++ "dynamodbcache:" ++ tableName ++ sfx := by
  intro e he
  cases ss with
  | error m => simp [DynamoDBDataSource.scan] at he
  | ok items =>
    simp only [DynamoDBDataSource.scan] at he
    by_cases hc : (items.length != 0 && ttlTruthy ttl) = true
    · rw [if_pos hc, setItemsInCache_eq] at he
      rcases List.mem_map.mp he with ⟨entry, hentry, hfe⟩
      obtain ⟨sfx, hsfx⟩ :=
        buildItemsCacheMap_key_shape CACHE_PREFIX_KEY tableName ks items entry hentry
      refine ⟨sfx, ?_⟩
      rw [← hfe]
      show PrefixingKeyValueCache.wrapKey CACHE_PREFIX_KEY entry.1 = _
      unfold PrefixingKeyValueCache.wrapKey
      rw [hsfx]
      unfold CACHE_PREFIX_KEY
      simp only [← String.append_assoc]
    · rw [if_neg hc] at he
      simp at he

/-- Every key `put` passes to the underlying cache client is doubly prefixed
and carries the table name. -/
theorem put_key_shape (stringify : Item → String) (tableName : String)
    (ks : KeySchema) (sp : Except (Option String) Unit) (inp : PutItemInput)
    (ttl : Option Nat) :
    ∀ e ∈ (DynamoDBDataSource.put stringify tableName ks sp inp ttl).2,
      ∃ sfx, CacheEff.key e =
        "dynamodbcache:" ++ "dynamodbcache:" ++ tableName ++ sfx := by
  intro e he
  cases sp with
  | error m => simp [DynamoDBDataSource.put] at he
  | ok u =>
    simp only [DynamoDBDataSource.put] at he
    by_cases hc : ttlTruthy ttl = true
    · rw [if_pos hc] at he
      simp only [DynamoDBCacheImpl.setInCache, List.mem_singleton] at he
      subst he
      exact wrapKey_shape tableName (buildKey ks inp.Item)
    · rw [if_neg hc] at he
      simp at he

/-- Every key `update` passes to the underlying cache client is doubly
prefixed and carries the table name. -/
theorem update_key_shape (stringify : Item → String) (tableName : String)
    (su : Except (Option String) (Option Item)) (inp : UpdateItemInput)
    (ttl : Option Nat) :
    ∀ e ∈ (DynamoDBDataSource.update stringify tableName su inp ttl).2,
      ∃ sfx, CacheEff.key e =
        "dynamodbcache:" ++ "dynamodbcache:" ++ tableName ++ sfx := by
  intro e he
  cases su with
  | error m => simp [DynamoDBDataSource.update] at he
  | ok updated =>
    simp only [DynamoDBDataSource.update] at he
    by_cases hc : (updated.isSome && ttlTruthy ttl) = true
    · rw [if_pos hc] at he
      simp only [DynamoDBCacheImpl.setInCache, List.mem_singleton] at he
      subst he
      exact wrapKey_shape tableName inp.Key
    · rw [if_neg hc] at he
      simp at he

/-- Every key `delete` passes to the underlying cache client is doubly
prefixed and carries the table name. -/
theorem delete_key_shape (tableName : String)
    (sd : Except (Option String) (Option Item)) (inp : DeleteItemInput) :
    ∀ e ∈ (DynamoDBDataSource.delete tableName sd inp).2,
      ∃ sfx, CacheEff.key e =
        "dynamodbcache:" ++ "dynamodbcache:" ++ tableName ++ sfx := by
  intro e he
  cases sd with
  | error m => simp [DynamoDBDataSource.delete] at he
  | ok d =>
    simp only [DynamoDBDataSource.delete, DynamoDBCacheImpl.removeItemFromCache,
      List.mem_singleton] at he
    subst he
    exact wrapKey_shape tableName inp.Key

/-- C10: `CACHE_PREFIX_KEY` is `"dynamodbcache:"`, and every key any accessor
operation passes to the underlying key-value cache client (on cache `get`,
`set`, and `delete`) carries that prefix twice — once prepended by
`buildCacheKey` and once by the `PrefixingKeyValueCache` wrapper installed in
the constructor — so every persisted key is
`"dynamodbcache:dynamodbcache:" ++ tableName ++ suffix`. -/
theorem claim_C10 :
    CACHE_PREFIX_KEY = "dynamodbcache:" ∧
    (∀ (kvGet : String → Except Unit (Option String)) (parse : String → Option Item)
        (stringify : Item → String) (storeGet : Except (Option String) (Option Item))
        (inp : GetItemInput) (ttl : Option Nat),
      ∀ e ∈ (DynamoDBCacheImpl.getItem kvGet parse stringify storeGet inp ttl).2.1,
        ∃ sfx, CacheEff.key e =
          "dynamodbcache:" ++ "dynamodbcache:" ++ inp.TableName ++ sfx) ∧
    (∀ (stringify : Item → String) (tableName : String) (ks : KeySchema)
        (sq : Except (Option String) (List Item)) (ttl : Option Nat),
      ∀ e ∈ (DynamoDBDataSource.query stringify tableName ks sq ttl).2,
        ∃ sfx, CacheEff.key e =
          "dynamodbcache:" ++ "dynamodbcache:" ++ tableName ++ sfx) ∧
    (∀ (stringify : Item → String) (tableName : String) (ks : KeySchema)
        (ss : Except (Option String) (List Item)) (ttl : Option Nat),
      ∀ e ∈ (DynamoDBDataSource.scan stringify tableName ks ss ttl).2,
        ∃ sfx, CacheEff.key e =
          "dynamodbcache:" ++ "dynamodbcache:" ++ tableName ++ sfx) ∧
    (∀ (stringify : Item → String) (tableName : String) (ks : KeySchema)
        (sp : Except (Option String) Unit) (inp : PutItemInput) (ttl : Option Nat),
      ∀ e ∈ (DynamoDBDataSource.put stringify tableName ks sp inp ttl).2,
        ∃ sfx, CacheEff.key e =
          "dynamodbcache:" ++ "dynamodbcache:" ++ tableName ++ sfx) ∧
    (∀ (stringify : Item → String) (tableName : String)
        (su : Except (Option String) (Option Item)) (inp : UpdateItemInput)
        (ttl : Option Nat),
      ∀ e ∈ (DynamoDBDataSource.update stringify tableName su inp ttl).2,
        ∃ sfx, CacheEff.key e =
          "dynamodbcache:" ++ "dynamodbcache:" ++ tableName ++ sfx) ∧
    (∀ (tableName : String) (sd : Except (Option String) (Option Item))
        (inp : DeleteItemInput),
      ∀ e ∈ (DynamoDBDataSource.delete tableName sd inp).2,
        ∃ sfx, CacheEff.key e =
          "dynamodbcache:" ++ "dynamodbcache:" ++ tableName ++ sfx) :=
  ⟨rfl, getItem_key_shape, query_key_shape, scan_key_shape, put_key_shape,
    update_key_shape, delete_key_shape⟩

/-- C10 witness: the concrete key evicted by a concrete `delete` is doubly
prefixed. -/
theorem claim_C10_witness :
    ∃ sfx, CacheEff.key (CacheEff.del
        (PrefixingKeyValueCache.wrapKey CACHE_PREFIX_KEY
          (buildCacheKey CACHE_PREFIX_KEY "test_hash_only"
            [("id", some (AttrVal.s "testId"))]))) =
      "dynamodbcache:" ++ "dynamodbcache:" ++ "test_hash_only" ++ sfx :=
  claim_C10.2.2.2.2.2.2 "test_hash_only" (Except.ok none)
    (DeleteItemInput.mk "test_hash_only" [("id", some (AttrVal.s "testId"))])
    (CacheEff.del (PrefixingKeyValueCache.wrapKey CACHE_PREFIX_KEY
      (buildCacheKey CACHE_PREFIX_KEY "test_hash_only"
        [("id", some (AttrVal.s "testId"))])))
    (by simp [DynamoDBDataSource.delete, DynamoDBCacheImpl.removeItemFromCache])
